import Mathlib

/-!
The package azureblob: connector, blob repository and JSON object service.

A shallow embedding of `BlobStore.go`, `BlobRepository.go` and `BlobService.go`.

* Go values of type `error` are `Option GoError` (`none` is `nil`).
* A Go function that may panic returns an `Outcome`.
* The remote store is explicit state `σ`, threaded through every call.
* The packages the repository imports (`azblob`, `net/url`, `encoding/json`,
  `go.uuid`) are not part of the repository: they enter as records of functions
  (`Azure`, `JsonLib`) and as the result of `uuid.NewV4()` for the call at hand.
-/

namespace AzureBlob

/-! ## Go values -/

/-- Go slice `[]α`; the `nil` slice and the empty slice are both `[]`. -/
abbrev Slice (α : Type) := List α

/-- Go `[]byte`. -/
abbrev Bytes := Slice UInt8

/-- Dynamic values of Go's `error` interface: a value that implements
`azblob.StorageError` (it has a `ServiceCode()`), or a value of any other
dynamic type (what `fmt.Errorf` builds, a transport error, a JSON error). -/
inductive GoError where
  | storage (serviceCode : String) (message : String)
  | other (message : String)
  deriving DecidableEq, Repr

/-- Method `Error()` of an error value. -/
def GoError.Error : GoError → String
  | .storage _ message => message
  | .other message => message

/-- Why a goroutine panicked. -/
inductive Panic where
  | typeAssertion
  | nilMapAssignment
  | nilDereference
  deriving DecidableEq, Repr

/-- Result of running a Go function: it returns its results, or it panics. -/
inductive Outcome (α : Type) where
  | returned (results : α)
  | panicked (cause : Panic)
  deriving DecidableEq, Repr

/-! ## The storage client library (`azblob`, `net/url`) -/

/-- Value `azblob.Marker`: field `Val *string`. -/
structure Marker where
  Val : Option String
  deriving DecidableEq, Repr

/-- Method `Marker.NotDone` of azblob: `m.Val == nil || *m.Val != ""`. -/
def Marker.NotDone (m : Marker) : Bool :=
  match m.Val with
  | none => true
  | some v => v != ""

/-- Value `azblob.BlobItem`, of which only `Name` is read. -/
structure BlobItem where
  Name : String
  deriving DecidableEq, Repr

/-- Value `azblob.BlobFlatListSegment`. -/
structure BlobFlatListSegment where
  BlobItems : Slice BlobItem
  deriving DecidableEq, Repr

/-- Value `azblob.ListBlobsFlatSegmentResponse`. -/
structure ListBlobsFlatSegmentResponse where
  NextMarker : Marker
  Segment : BlobFlatListSegment
  deriving DecidableEq, Repr

/-- Value `azblob.SharedKeyCredential`. -/
structure Credential where
  accountName : String
  accountKey : String
  deriving DecidableEq, Repr

/-- Value `azblob.ContainerURL`: the endpoint and the pipeline's credential.
The zero value `azblob.ContainerURL{}` is `ContainerURL.zero`. -/
structure ContainerURL where
  url : String
  credential : Option Credential
  deriving DecidableEq, Repr

/-- Zero value `azblob.ContainerURL{}`. -/
def ContainerURL.zero : ContainerURL := ⟨"", none⟩

/-- Value `azblob.BlockBlobURL`, built by `containerURL.NewBlockBlobURL(name)`. -/
structure BlockBlobURL where
  container : ContainerURL
  blobName : String
  deriving DecidableEq, Repr

/-- Method `ContainerURL.NewBlockBlobURL`. -/
def ContainerURL.NewBlockBlobURL (c : ContainerURL) (blobName : String) : BlockBlobURL :=
  ⟨c, blobName⟩

/-- Constant `azblob.ServiceCodeContainerAlreadyExists`. -/
def ServiceCodeContainerAlreadyExists : String := "ContainerAlreadyExists"

/-- The calls the repository makes into `azblob` and `net/url`, over a remote
store in state `σ`.  `Download` yields the response whose body, read to the
end by `bytes.Buffer.ReadFrom`, gives the payload or a read error. -/
structure Azure (σ : Type) where
  NewSharedKeyCredential : String → String → Except GoError Credential
  urlParse : String → Except GoError String
  containerCreate : ContainerURL → σ → Option GoError × σ
  ListBlobsFlatSegment :
    ContainerURL → Marker → σ → Except GoError ListBlobsFlatSegmentResponse × σ
  Download : BlockBlobURL → σ → Except GoError (Except GoError Bytes) × σ
  UploadBufferToBlockBlob : Bytes → BlockBlobURL → σ → Option GoError × σ
  blobDelete : BlockBlobURL → σ → Option GoError × σ

/-! ## BlobStore.go -/

/-- Struct `BlobStore`. -/
structure BlobStore where
  Name : String
  Key : String
  deriving DecidableEq, Repr

/-- Method `BlobStore.Connect`.  The error of `url.Parse` is dropped and the result
dereferenced; the error of the container creation is asserted to be an
`azblob.StorageError` as soon as it is not nil. -/
def BlobStore.Connect {σ : Type} (az : Azure σ) (store : BlobStore) (container : String)
    (s : σ) : Outcome (ContainerURL × Option GoError) × σ :=
  match az.NewSharedKeyCredential store.Name store.Key with
  | .error err =>
    (.returned (ContainerURL.zero,
      some (.other ("Invalid credentials with error: " ++ err.Error))), s)
  | .ok credential =>
    match az.urlParse ("https://" ++ store.Name ++ ".blob.core.windows.net/" ++ container) with
    | .error _ => (.panicked .nilDereference, s)
    | .ok URL =>
      let containerURL : ContainerURL := ⟨URL, some credential⟩
      match az.containerCreate containerURL s with
      | (none, s1) => (.returned (containerURL, none), s1)
      | (some (.storage serviceCode message), s1) =>
        if serviceCode ≠ ServiceCodeContainerAlreadyExists then
          (.returned (containerURL,
            some (.other ("Obtained container with error: " ++
              (GoError.storage serviceCode message).Error))), s1)
        else
          (.returned (containerURL, none), s1)
      | (some (.other _), s1) => (.panicked .typeAssertion, s1)

/-- Interface `IBlobStore`. -/
structure IBlobStore (σ : Type) where
  Connect : String → σ → Outcome (ContainerURL × Option GoError) × σ

/-- The `BlobStore` struct seen through `IBlobStore`. -/
def BlobStore.asIBlobStore {σ : Type} (az : Azure σ) (store : BlobStore) : IBlobStore σ :=
  ⟨fun container s => store.Connect az container s⟩

/-! ## BlobRepository.go -/

/-- Struct `BlobRepository`: field `BlobStore IBlobStore` and the container name. -/
structure BlobRepository (σ : Type) where
  BlobStore : IBlobStore σ
  ContainerName : String

/-- Function `strings.ToLower`, on the ASCII letters. -/
def ToLower (s : String) : String := ⟨s.data.map Char.toLower⟩

/-- Function `uploadFromBuffer`: the error of `azblob.UploadBufferToBlockBlob`. -/
def uploadFromBuffer {σ : Type} (az : Azure σ) (blobURL : BlockBlobURL) (buffer : Bytes)
    (s : σ) : Option GoError × σ :=
  match az.UploadBufferToBlockBlob buffer blobURL s with
  | (some err, s1) => (some err, s1)
  | (none, s1) => (none, s1)

/-- Function `downloadToBuffer`: returns the new content of `*buffer` (started as the nil
slice by its only caller) and the error. -/
def downloadToBuffer {σ : Type} (az : Azure σ) (blobURL : BlockBlobURL)
    (s : σ) : (Bytes × Option GoError) × σ :=
  match az.Download blobURL s with
  | (.error err, s1) => (([], some err), s1)
  | (.ok body, s1) =>
    match body with
    | .error err => (([], some err), s1)
    | .ok data => ((data, none), s1)

/-- Method `BlobRepository.Update`. -/
def BlobRepository.Update {σ : Type} (az : Azure σ) (repo : BlobRepository σ)
    (fileName : String) (data : Bytes) (s : σ) : Outcome (Option GoError) × σ :=
  match repo.BlobStore.Connect (ToLower repo.ContainerName) s with
  | (.panicked p, s1) => (.panicked p, s1)
  | (.returned (_, some err), s1) => (.returned (some err), s1)
  | (.returned (containerURL, none), s1) =>
    let blobURL := containerURL.NewBlockBlobURL fileName
    match uploadFromBuffer az blobURL data s1 with
    | (some err, s2) =>
      (.returned (some (.other ("Upload failed with error: " ++ err.Error))), s2)
    | (none, s2) => (.returned none, s2)

/-- Method `BlobRepository.Create`, which is `Update`. -/
def BlobRepository.Create {σ : Type} (az : Azure σ) (repo : BlobRepository σ)
    (fileName : String) (data : Bytes) (s : σ) : Outcome (Option GoError) × σ :=
  repo.Update az fileName data s

/-- The `for marker := (azblob.Marker{}); marker.NotDone(); { ... }` loop of
`BlobRepository.List`, with a bound on the number of iterations: `none` when the
bound is reached with the marker still not done. -/
def listLoop {σ : Type} (az : Azure σ) (containerURL : ContainerURL) :
    Nat → Marker → Slice String → σ → Option ((Slice String × Option GoError) × σ)
  | 0, marker, fileNames, s =>
    if marker.NotDone then none else some ((fileNames, none), s)
  | fuel + 1, marker, fileNames, s =>
    if marker.NotDone then
      match az.ListBlobsFlatSegment containerURL marker s with
      | (.error err, s1) =>
        some ((fileNames, some (.other ("Listing failed with error: " ++ err.Error))), s1)
      | (.ok listBlob, s1) =>
        listLoop az containerURL fuel listBlob.NextMarker
          (fileNames ++ listBlob.Segment.BlobItems.map (fun blobInfo => blobInfo.Name)) s1
    else some ((fileNames, none), s)

/-- Method `BlobRepository.List`, with the bound of `listLoop`. -/
def BlobRepository.List {σ : Type} (az : Azure σ) (repo : BlobRepository σ) (fuel : Nat)
    (s : σ) : Option (Outcome (Slice String × Option GoError) × σ) :=
  match repo.BlobStore.Connect (ToLower repo.ContainerName) s with
  | (.panicked p, s1) => some (.panicked p, s1)
  | (.returned (_, some err), s1) => some (.returned ([], some err), s1)
  | (.returned (containerURL, none), s1) =>
    match listLoop az containerURL fuel ⟨none⟩ [] s1 with
    | none => none
    | some (results, s2) => some (.returned results, s2)

/-- Method `BlobRepository.Read`. -/
def BlobRepository.Read {σ : Type} (az : Azure σ) (repo : BlobRepository σ)
    (fileName : String) (s : σ) : Outcome (Bytes × Option GoError) × σ :=
  match repo.BlobStore.Connect (ToLower repo.ContainerName) s with
  | (.panicked p, s1) => (.panicked p, s1)
  | (.returned (_, some err), s1) => (.returned ([], some err), s1)
  | (.returned (containerURL, none), s1) =>
    let blobURL := containerURL.NewBlockBlobURL fileName
    match downloadToBuffer az blobURL s1 with
    | ((buffer, some err), s2) => (.returned (buffer, some err), s2)
    | ((buffer, none), s2) => (.returned (buffer, none), s2)

/-- Method `BlobRepository.Delete`. -/
def BlobRepository.Delete {σ : Type} (az : Azure σ) (repo : BlobRepository σ)
    (fileName : String) (s : σ) : Outcome (Option GoError) × σ :=
  match repo.BlobStore.Connect (ToLower repo.ContainerName) s with
  | (.panicked p, s1) => (.panicked p, s1)
  | (.returned (_, some err), s1) => (.returned (some err), s1)
  | (.returned (containerURL, none), s1) =>
    let blobURL := containerURL.NewBlockBlobURL fileName
    match az.blobDelete blobURL s1 with
    | (some err, s2) =>
      (.returned (some (.other ("Delete failed with error: " ++ err.Error))), s2)
    | (none, s2) => (.returned none, s2)

/-! ## The packages `encoding/json`, `reflect` and `go.uuid` -/

/-- What `json.Unmarshal` stores in an `interface{}`: `nil`, `bool`, `float64`
(kept as its 64 bits), `string`, `[]interface{}` or `map[string]interface{}`.
A nested map is kept as its entries in increasing key order, so that equal Go
values are equal terms. -/
inductive Value where
  | null
  | bool (b : Bool)
  | number (float64bits : Nat)
  | str (s : String)
  | array (items : List Value)
  | object (fields : List (String × Value))

/-- Entries of a non-nil `map[string]interface{}`. A Go map is read through its
keys only, so two lists with the same `JMap.get` stand for the same map. -/
abbrev JMap := Slice (String × Value)

/-- Index expression `m[key]` on a non-nil map: `none` when the key is absent. -/
def JMap.get : JMap → String → Option Value
  | [], _ => none
  | (k, x) :: rest, key => if k = key then some x else JMap.get rest key

/-- Assignment `m[key] = v` on a non-nil map. -/
def JMap.set : JMap → String → Value → JMap
  | [], key, v => [(key, v)]
  | (k, x) :: rest, key, v =>
    if k = key then (key, v) :: rest else (k, x) :: JMap.set rest key v

/-- Index expression `m[key]` on a variable of type `map[string]interface{}`,
which may hold the nil map (`none`): a missing key gives the nil interface. -/
def mapIndex (m : Option JMap) (key : String) : Option Value :=
  match m with
  | none => none
  | some entries => entries.get key

/-- The calls into `encoding/json`, for caller objects of type `ω` and read
destinations holding a `τ`:
* `Marshal` is `json.Marshal(object)` on the caller's object;
* `MarshalMap` is `json.Marshal(mappedObject)` on a non-nil map;
* `UnmarshalMap` is `json.Unmarshal(data, &mappedObject)` into a freshly made
  map: a JSON object gives its entries, JSON `null` sets the map to nil
  (`none`), anything else is an error;
* `Unmarshal` is `json.Unmarshal(data, object)` into what the caller's pointer
  refers to: the new content and the error. -/
structure JsonLib (ω τ : Type) where
  Marshal : ω → Except GoError Bytes
  MarshalMap : JMap → Except GoError Bytes
  UnmarshalMap : Bytes → Except GoError (Option JMap)
  Unmarshal : Bytes → τ → τ × Option GoError

/-- Value `uuid.UUID`, of which only the method `String()` is used. -/
structure UUID where
  String : String
  deriving DecidableEq, Repr

/-- The `object interface{}` argument of `Read`, split by
`reflect.ValueOf(object).Kind()`: a pointer, with what it refers to, or a value
of any other kind. -/
inductive Argument (τ : Type) where
  | pointer (target : τ)
  | nonPointer (value : τ)
  deriving DecidableEq, Repr

/-! ## BlobService.go -/

/-- Interface `IBlobRepository`. `List` is `none` when the listing did not end
within the bound of the implementation's loop. -/
structure IBlobRepository (σ : Type) where
  Create : String → Bytes → σ → Outcome (Option GoError) × σ
  List : σ → Option (Outcome (Slice String × Option GoError) × σ)
  Read : String → σ → Outcome (Bytes × Option GoError) × σ
  Update : String → Bytes → σ → Outcome (Option GoError) × σ
  Delete : String → σ → Outcome (Option GoError) × σ

/-- The `BlobRepository` struct seen through `IBlobRepository`. -/
def BlobRepository.asIBlobRepository {σ : Type} (az : Azure σ) (repo : BlobRepository σ)
    (fuel : Nat) : IBlobRepository σ where
  Create := repo.Create az
  List := repo.List az fuel
  Read := repo.Read az
  Update := repo.Update az
  Delete := repo.Delete az

/-- Struct `blobService`. -/
structure blobService (σ : Type) where
  repo : IBlobRepository σ

/-- Function `GetBlobService`. -/
def GetBlobService {σ : Type} (az : Azure σ) (fuel : Nat) (blobStore : IBlobStore σ)
    (containerName : String) : blobService σ :=
  ⟨BlobRepository.asIBlobRepository az ⟨blobStore, containerName⟩ fuel⟩

/-- Error `fmt.Errorf("Blob with identifier '%s' does not exist", id)`. -/
def errNotExist (id : String) : GoError :=
  .other ("Blob with identifier '" ++ id ++ "' does not exist")

/-- Error `fmt.Errorf("Checksum '%s' does not match with the provided '%s'", identifier, id)`. -/
def errChecksum (identifier id : String) : GoError :=
  .other ("Checksum '" ++ identifier ++ "' does not match with the provided '" ++ id ++ "'")

/-- Error `fmt.Errorf("Argument 'object' must be passed by reference")`. -/
def errByReference : GoError :=
  .other "Argument 'object' must be passed by reference"

/-- Method `blobService.Create`; `newV4` is what `uuid.NewV4()` returns in this call. -/
def blobService.Create {σ ω τ : Type} (json : JsonLib ω τ) (service : blobService σ)
    (newV4 : Except GoError UUID) (object : ω) (s : σ) :
    Outcome (String × Option GoError) × σ :=
  match newV4 with
  | .error err => (.returned ("", some err), s)
  | .ok generator =>
    match json.Marshal object with
    | .error err => (.returned ("", some err), s)
    | .ok data =>
      match json.UnmarshalMap data with
      | .error err => (.returned ("", some err), s)
      | .ok none => (.panicked .nilMapAssignment, s)
      | .ok (some mappedObject) =>
        let identifier := generator.String
        let mappedObject := mappedObject.set "id" (.str identifier)
        match json.MarshalMap mappedObject with
        | .error err => (.returned (identifier, some err), s)
        | .ok data =>
          match service.repo.Create identifier data s with
          | (.panicked p, s1) => (.panicked p, s1)
          | (.returned (some err), s1) => (.returned (identifier, some err), s1)
          | (.returned none, s1) => (.returned (identifier, none), s1)

/-- Method `blobService.List`. -/
def blobService.List {σ : Type} (service : blobService σ) (s : σ) :
    Option (Outcome (Slice String × Option GoError) × σ) :=
  match service.repo.List s with
  | none => none
  | some (.panicked p, s1) => some (.panicked p, s1)
  | some (.returned (entries, some err), s1) => some (.returned (entries, some err), s1)
  | some (.returned (entries, none), s1) => some (.returned (entries, none), s1)

/-- Method `blobService.Read`: the outcome, the `object` argument after the call, and
the store. -/
def blobService.Read {σ ω τ : Type} (json : JsonLib ω τ) (service : blobService σ)
    (id : String) (object : Argument τ) (s : σ) :
    Outcome (Option GoError) × Argument τ × σ :=
  match object with
  | .nonPointer _ => (.returned (some errByReference), object, s)
  | .pointer target =>
    match service.repo.Read id s with
    | (.panicked p, s1) => (.panicked p, object, s1)
    | (.returned (data, err), s1) =>
      if err.isSome ∧ data.length > 0 then
        (.returned err, object, s1)
      else if data.length ≤ 0 then
        (.returned (some (errNotExist id)), object, s1)
      else
        match json.UnmarshalMap data with
        | .error err => (.returned (some err), object, s1)
        | .ok mappedObject =>
          match mapIndex mappedObject "id" with
          | some (.str identifier) =>
            if identifier ≠ id then
              (.returned (some (errChecksum identifier id)), object, s1)
            else
              match json.Unmarshal data target with
              | (target1, some err) => (.returned (some err), .pointer target1, s1)
              | (target1, none) => (.returned none, .pointer target1, s1)
          | _ => (.panicked .typeAssertion, object, s1)

/-- Method `blobService.Update`. -/
def blobService.Update {σ ω τ : Type} (json : JsonLib ω τ) (service : blobService σ)
    (object : ω) (s : σ) : Outcome (Option GoError) × σ :=
  match json.Marshal object with
  | .error err => (.returned (some err), s)
  | .ok data =>
    match json.UnmarshalMap data with
    | .error err => (.returned (some err), s)
    | .ok mappedObject =>
      match mapIndex mappedObject "id" with
      | some (.str identifier) =>
        match service.repo.Read identifier s with
        | (.panicked p, s1) => (.panicked p, s1)
        | (.returned («exists», _), s1) =>
          if «exists».length ≤ 0 then
            (.returned (some (errNotExist identifier)), s1)
          else
            match service.repo.Update identifier data s1 with
            | (.panicked p, s2) => (.panicked p, s2)
            | (.returned (some err), s2) => (.returned (some err), s2)
            | (.returned none, s2) => (.returned none, s2)
      | _ => (.panicked .typeAssertion, s)

/-- Method `blobService.Delete`. -/
def blobService.Delete {σ : Type} (service : blobService σ) (id : String) (s : σ) :
    Outcome (Option GoError) × σ :=
  match service.repo.Read id s with
  | (.panicked p, s1) => (.panicked p, s1)
  | (.returned («exists», _), s1) =>
    if «exists».length ≤ 0 then
      (.returned (some (errNotExist id)), s1)
    else
      match service.repo.Delete id s1 with
      | (.panicked p, s2) => (.panicked p, s2)
      | (.returned (some err), s2) => (.returned (some err), s2)
      | (.returned none, s2) => (.returned none, s2)

/-! ## Recording the calls that reach the repository -/

/-- One call on `IBlobRepository`, with its arguments. -/
inductive RepoCall where
  | Create (fileName : String) (data : Bytes)
  | List
  | Read (fileName : String)
  | Update (fileName : String) (data : Bytes)
  | Delete (fileName : String)
  deriving DecidableEq, Repr

/-- The same repository, with every call appended to a log kept next to the
store. -/
def IBlobRepository.recorded {σ : Type} (r : IBlobRepository σ) :
    IBlobRepository (σ × Slice RepoCall) where
  Create := fun fileName data st =>
    ((r.Create fileName data st.1).1,
      ((r.Create fileName data st.1).2, st.2 ++ [RepoCall.Create fileName data]))
  List := fun st =>
    match r.List st.1 with
    | none => none
    | some (out, s1) => some (out, (s1, st.2 ++ [RepoCall.List]))
  Read := fun fileName st =>
    ((r.Read fileName st.1).1, ((r.Read fileName st.1).2, st.2 ++ [RepoCall.Read fileName]))
  Update := fun fileName data st =>
    ((r.Update fileName data st.1).1,
      ((r.Update fileName data st.1).2, st.2 ++ [RepoCall.Update fileName data]))
  Delete := fun fileName st =>
    ((r.Delete fileName st.1).1,
      ((r.Delete fileName st.1).2, st.2 ++ [RepoCall.Delete fileName]))

/-! ## What the store serves to a listing -/

/-- Names of the blobs of one served segment. -/
def segmentNames (listBlob : ListBlobsFlatSegmentResponse) : Slice String :=
  listBlob.Segment.BlobItems.map (fun blobInfo => blobInfo.Name)

/-- Relation `Serves az url marker s segments failure sEnd`: asked for the segment at
`marker` in state `s`, and then for each next marker in turn, the store serves
`segments` one after the other and ends in state `sEnd`; either the last of
them carries a next marker that is done (`failure = none`), or the fetch that
follows them fails with `failure`. -/
inductive Serves {σ : Type} (az : Azure σ) (url : ContainerURL) :
    Marker → σ → Slice (Slice String) → Option GoError → σ → Prop where
  | last {marker : Marker} {s : σ} (s1 : σ) (listBlob : ListBlobsFlatSegmentResponse)
      (fetch : az.ListBlobsFlatSegment url marker s = (.ok listBlob, s1))
      (done : listBlob.NextMarker.NotDone = false) :
      Serves az url marker s [segmentNames listBlob] none s1
  | more {marker : Marker} {s sEnd : σ} (s1 : σ) (listBlob : ListBlobsFlatSegmentResponse)
      {segments : Slice (Slice String)} {failure : Option GoError}
      (fetch : az.ListBlobsFlatSegment url marker s = (.ok listBlob, s1))
      (notDone : listBlob.NextMarker.NotDone = true)
      (rest : Serves az url listBlob.NextMarker s1 segments failure sEnd) :
      Serves az url marker s (segmentNames listBlob :: segments) failure sEnd
  | failed {marker : Marker} {s : σ} (s1 : σ) (err : GoError)
      (fetch : az.ListBlobsFlatSegment url marker s = (.error err, s1)) :
      Serves az url marker s [] (some err) s1

/-- Error `fmt.Errorf("Listing failed with error: %s", err.Error())`. -/
def errListing (err : GoError) : GoError :=
  .other ("Listing failed with error: " ++ err.Error)

/-! ## An in-memory storage account -/

/-- State of a storage account held in memory: whether the endpoint can be
reached, the containers that exist (by URL) and the blobs, in store order, as
(container URL, blob name, content). -/
structure MemStore where
  reachable : Bool
  containers : Slice String
  blobs : Slice (String × String × Bytes)
  deriving DecidableEq, Repr

/-- Error of a request that never reached the service: not a `StorageError`. -/
def errTransport : GoError := .other "HTTP request failed: dial tcp: no such host"

/-- Storage error `BlobNotFound`. -/
def errBlobNotFound : GoError := .storage "BlobNotFound" "The specified blob does not exist."

/-- Storage error `ContainerAlreadyExists`. -/
def errContainerAlreadyExists : GoError :=
  .storage "ContainerAlreadyExists" "The specified container already exists."

/-- Names of the blobs of a container, in store order. -/
def MemStore.names (s : MemStore) (url : String) : Slice String :=
  (s.blobs.filter (fun b => b.1 = url)).map (fun b => b.2.1)

/-- Content of a blob, when it exists. -/
def MemStore.content (s : MemStore) (url name : String) : Option Bytes :=
  (s.blobs.find? (fun b => b.1 = url ∧ b.2.1 = name)).map (fun b => b.2.2)

/-- A storage account in memory, answering like the service on the requests the
repository sends.  Account keys are accepted when they are plain base64 text of
a whole number of 4-character groups; URLs are rejected when they hold a blank;
listings come in segments of two names, the marker being the name the next
segment starts at. -/
def memAzure : Azure MemStore where
  NewSharedKeyCredential := fun name key =>
    if key.data.all (fun c => c.isAlphanum ∨ c = '+' ∨ c = '/') ∧ key.data.length % 4 = 0 then
      .ok ⟨name, key⟩
    else .error (.other "illegal base64 data")
  urlParse := fun raw =>
    if raw.data.any (fun c => c = ' ') then .error (.other "invalid character in host name")
    else .ok raw
  containerCreate := fun c s =>
    if s.reachable = false then (some errTransport, s)
    else if c.url ∈ s.containers then (some errContainerAlreadyExists, s)
    else (none, { s with containers := s.containers ++ [c.url] })
  ListBlobsFlatSegment := fun c marker s =>
    if s.reachable = false then (.error errTransport, s)
    else
      let pending : Slice String :=
        match marker.Val with
        | none => s.names c.url
        | some v => (s.names c.url).dropWhile (fun n => n ≠ v)
      (.ok ⟨⟨some ((pending.drop 2).headD "")⟩, ⟨(pending.take 2).map BlobItem.mk⟩⟩, s)
  Download := fun b s =>
    if s.reachable = false then (.error errTransport, s)
    else
      match s.content b.container.url b.blobName with
      | none => (.error errBlobNotFound, s)
      | some data => (.ok (.ok data), s)
  UploadBufferToBlockBlob := fun data b s =>
    if s.reachable = false then (some errTransport, s)
    else
      match s.content b.container.url b.blobName with
      | none => (none, { s with blobs := s.blobs ++ [(b.container.url, b.blobName, data)] })
      | some _ =>
        (none, { s with blobs := s.blobs.map (fun e =>
          if e.1 = b.container.url ∧ e.2.1 = b.blobName then (e.1, e.2.1, data) else e) })
  blobDelete := fun b s =>
    if s.reachable = false then (some errTransport, s)
    else
      match s.content b.container.url b.blobName with
      | none => (some errBlobNotFound, s)
      | some _ =>
        (none, { s with blobs := s.blobs.filter (fun e =>
          ¬ (e.1 = b.container.url ∧ e.2.1 = b.blobName)) })

/-- The account of the examples. -/
def sampleStore : BlobStore := ⟨"acct", "a2V5"⟩

/-- The repository of the examples: container `Photos` of `sampleStore`. -/
def sampleRepository : BlobRepository MemStore :=
  ⟨sampleStore.asIBlobStore memAzure, "Photos"⟩

/-- URL of the container of `sampleRepository`. -/
def photosUrl : String := "https://acct.blob.core.windows.net/photos"

/-- An account that cannot be reached. -/
def offline : MemStore := ⟨false, [], []⟩

/-- A reachable account whose container holds three blobs. -/
def threeBlobs : MemStore :=
  ⟨true, [photosUrl], [(photosUrl, "a", [1]), (photosUrl, "b", [2]), (photosUrl, "c", [3])]⟩

/-- An account whose container does not exist yet. -/
def emptyAccount : MemStore := ⟨true, [], []⟩

/-! ## A fragment of `encoding/json` -/

/-- Bytes of a text of ASCII characters. -/
def ascii (text : String) : Bytes := text.data.map (fun c => c.toNat.toUInt8)

/-- A version 4 UUID in the form `UUID.String()` prints. -/
def sampleId : String := "f47ac10b-58cc-4372-a567-0e02b2c3d479"

/-- Document `{"name":"alice"}`. -/
def docAlice : Bytes := ascii "\x7b\"name\":\"alice\"\x7d"

/-- Document `{"id":"old","name":"alice"}`. -/
def docAliceOld : Bytes := ascii "\x7b\"id\":\"old\",\"name\":\"alice\"\x7d"

/-- Document `{"id":"f47ac10b-58cc-4372-a567-0e02b2c3d479","name":"alice"}`. -/
def docAliceId : Bytes :=
  ascii "\x7b\"id\":\"f47ac10b-58cc-4372-a567-0e02b2c3d479\",\"name\":\"alice\"\x7d"

/-- Document `{"id":"f47ac10b-58cc-4372-a567-0e02b2c3d479","name":"bob"}`. -/
def docBobId : Bytes :=
  ascii "\x7b\"id\":\"f47ac10b-58cc-4372-a567-0e02b2c3d479\",\"name\":\"bob\"\x7d"

/-- Document `{"id":5}`. -/
def docFive : Bytes := ascii "\x7b\"id\":5\x7d"

/-- Document `null`. -/
def docNull : Bytes := ascii "null"

/-- Document `[1]`. -/
def docList : Bytes := ascii "[1]"

/-- Some Go values a caller hands to the service. -/
inductive SampleObject where
  /-- Go value `map[string]string{"name": "alice"}` -/
  | alice
  /-- Go value `map[string]string{"id": "old", "name": "alice"}` -/
  | aliceOld
  /-- Go value `map[string]string{"id": "f47ac10b-58cc-4372-a567-0e02b2c3d479", "name": "bob"}` -/
  | bob
  /-- Go value `make(chan int)` -/
  | channel
  /-- Go value `map[string]string(nil)` -/
  | nilMap
  /-- Go value `[]int{1}` -/
  | list
  deriving DecidableEq, Repr

/-- Function `json.Marshal` on the sample objects. -/
def sampleMarshal : SampleObject → Except GoError Bytes
  | .alice => .ok docAlice
  | .aliceOld => .ok docAliceOld
  | .bob => .ok docBobId
  | .channel => .error (.other "json: unsupported type: chan int")
  | .nilMap => .ok docNull
  | .list => .ok docList

/-- Function `json.Unmarshal` into a fresh `map[string]interface{}`, on the sample
documents; any other input is reported as a syntax error. -/
def sampleUnmarshalMap (data : Bytes) : Except GoError (Option JMap) :=
  if data = docAlice then .ok (some [("name", .str "alice")])
  else if data = docAliceOld then .ok (some [("id", .str "old"), ("name", .str "alice")])
  else if data = docAliceId then .ok (some [("id", .str sampleId), ("name", .str "alice")])
  else if data = docBobId then .ok (some [("id", .str sampleId), ("name", .str "bob")])
  else if data = docFive then .ok (some [("id", .number 4617315517961601024)])
  else if data = docNull then .ok none
  else if data = docList then
    .error (.other "json: cannot unmarshal array into Go value of type map[string]interface {}")
  else .error (.other "invalid character looking for beginning of value")

/-- Function `json.Marshal` on the maps the sample objects lead to (keys come out
sorted); any other map is reported as unsupported. -/
def sampleMarshalMap : JMap → Except GoError Bytes
  | [("name", .str "alice"), ("id", .str "f47ac10b-58cc-4372-a567-0e02b2c3d479")] =>
    .ok docAliceId
  | [("id", .str "f47ac10b-58cc-4372-a567-0e02b2c3d479"), ("name", .str "alice")] =>
    .ok docAliceId
  | [("id", .str "f47ac10b-58cc-4372-a567-0e02b2c3d479"), ("name", .str "bob")] =>
    .ok docBobId
  | _ => .error (.other "json: unsupported value")

/-- Function `json.Unmarshal` into a `*map[string]interface{}`: the entries of the
document are stored into the map the pointer refers to. -/
def sampleUnmarshal (data : Bytes) (target : JMap) : JMap × Option GoError :=
  match sampleUnmarshalMap data with
  | .error err => (target, some err)
  | .ok none => ([], none)
  | .ok (some entries) => (entries.foldl (fun acc e => JMap.set acc e.1 e.2) target, none)

/-- The fragment of `encoding/json`: callers pass a `SampleObject` and read
into a `*map[string]interface{}`. -/
def sampleJson : JsonLib SampleObject JMap where
  Marshal := sampleMarshal
  MarshalMap := sampleMarshalMap
  UnmarshalMap := sampleUnmarshalMap
  Unmarshal := sampleUnmarshal

/-- The service of the examples, over `sampleRepository`. -/
def sampleService : blobService MemStore :=
  GetBlobService memAzure 8 (sampleStore.asIBlobStore memAzure) "Photos"

/-- The account after the object `alice` was created under `sampleId`. -/
def aliceStored : MemStore := ⟨true, [photosUrl], [(photosUrl, sampleId, docAliceId)]⟩

/-- An account whose blob `sampleId` holds the document `{"id":5}`. -/
def fiveStored : MemStore := ⟨true, [photosUrl], [(photosUrl, sampleId, docFive)]⟩

/-- The account of `emptyAccount` once a connection has created the container. -/
def containerCreated : MemStore := ⟨true, [photosUrl], []⟩

/-- The account once `Connect` has made sure the container exists. -/
def ensured (s : MemStore) : MemStore :=
  if photosUrl ∈ s.containers then s
  else { s with containers := s.containers ++ [photosUrl] }

/-- The container URL `sampleStore` connects to. -/
def photos : ContainerURL := ⟨photosUrl, some ⟨"acct", "a2V5"⟩⟩

/-- The library serializes a map to a non-empty document that decodes back to
a map with the same entries. -/
def JsonLib.RoundTrips {ω τ : Type} (json : JsonLib ω τ) : Prop :=
  ∀ (m : JMap) (data : Bytes), json.MarshalMap m = .ok data →
    data ≠ [] ∧ ∃ m1, json.UnmarshalMap data = .ok (some m1) ∧ ∀ key, m1.get key = m.get key

/-- The document `data` decodes to a JSON object whose `id` is the string
`fileName`. -/
def carriesName {ω τ : Type} (json : JsonLib ω τ) (fileName : String) (data : Bytes) : Prop :=
  ∃ m, json.UnmarshalMap data = .ok (some m) ∧ m.get "id" = some (.str fileName)

/-- The writes among recorded calls: name and bytes of each `Create` and
`Update`. -/
def writes : Slice RepoCall → Slice (String × Bytes)
  | [] => []
  | .Create fileName data :: rest => (fileName, data) :: writes rest
  | .Update fileName data :: rest => (fileName, data) :: writes rest
  | _ :: rest => writes rest

/-! ## Lemmas: maps and the JSON fragment -/

/-- Reading a map after an assignment. -/
theorem JMap.get_set (m : JMap) (key : String) (v : Value) (key1 : String) :
    (m.set key v).get key1 = if key1 = key then some v else m.get key1 := by
  induction m with
  | nil =>
    by_cases h : key = key1
    · simp [JMap.set, JMap.get, h]
    · have h1 : ¬ key1 = key := fun e => h e.symm
      simp [JMap.set, JMap.get, h, h1]
  | cons e rest ih =>
    obtain ⟨k, x⟩ := e
    by_cases hk : k = key
    · subst hk
      by_cases h : k = key1
      · simp [JMap.set, JMap.get, h]
      · have h1 : ¬ key1 = k := fun e => h e.symm
        simp [JMap.set, JMap.get, h, h1]
    · by_cases h : k = key1
      · subst h
        simp [JMap.set, JMap.get, hk]
      · simp [JMap.set, JMap.get, hk, h, ih]

theorem mapIndex_str {m : Option JMap} {key u : String}
    (h : mapIndex m key = some (.str u)) : ∃ entries, m = some entries ∧ entries.get key = some (.str u) := by
  cases m with
  | none => simp [mapIndex] at h
  | some entries => exact ⟨entries, rfl, by simpa [mapIndex] using h⟩

/-- The JSON fragment decodes what it serializes. -/
theorem sampleJson_roundTrips : sampleJson.RoundTrips := by
  intro m data h
  simp only [sampleJson] at h
  unfold sampleMarshalMap at h
  split at h
  · cases h
    refine ⟨by decide, _, rfl, ?_⟩
    intro key
    by_cases h1 : "name" = key
    · subst h1; rfl
    · by_cases h2 : "id" = key
      · subst h2; rfl
      · simp [JMap.get, h1, h2]
  · cases h
    exact ⟨by decide, _, rfl, fun _ => rfl⟩
  · cases h
    exact ⟨by decide, _, rfl, fun _ => rfl⟩
  · cases h

/-- The listing loop, given more iterations than served segments, returns the
names accumulated so far followed by those served. -/
theorem listLoop_of_serves {σ : Type} (az : Azure σ) (url : ContainerURL)
    {marker : Marker} {s sEnd : σ} {segments : Slice (Slice String)}
    {failure : Option GoError} (h : Serves az url marker s segments failure sEnd) :
    ∀ (fuel : Nat) (fileNames : Slice String), marker.NotDone = true →
      segments.length < fuel →
      listLoop az url fuel marker fileNames s =
        some ((fileNames ++ segments.flatten, failure.map errListing), sEnd) := by
  induction h with
  | @last marker s s1 listBlob fetch done =>
    intro fuel fileNames hm hfuel
    obtain ⟨k, rfl⟩ : ∃ k, fuel = k + 1 := ⟨fuel - 1, by simp at hfuel; omega⟩
    cases k with
    | zero => simp [listLoop, hm, fetch, done, segmentNames]
    | succ j => simp [listLoop, hm, fetch, done, segmentNames]
  | @more marker s s1 sEnd listBlob segments failure fetch notDone _ ih =>
    intro fuel fileNames hm hfuel
    obtain ⟨k, rfl⟩ : ∃ k, fuel = k + 1 := ⟨fuel - 1, by simp at hfuel; omega⟩
    have hk : segments.length < k := by simpa using hfuel
    simp [listLoop, hm, fetch, ih k _ notDone hk, segmentNames]
  | @failed marker s s1 err fetch =>
    intro fuel fileNames hm hfuel
    obtain ⟨k, rfl⟩ : ∃ k, fuel = k + 1 := ⟨fuel - 1, by simp at hfuel; omega⟩
    simp [listLoop, hm, fetch, errListing]

theorem errDelete_ne (e : GoError) :
    GoError.other ("Delete failed with error: " ++ e.Error) ≠ e := by
  cases e with
  | storage code message => simp
  | other message =>
    intro h
    have hlen := congrArg (fun x => x.Error.length) h
    simp [GoError.Error, String.length_append] at hlen
    revert hlen
    decide

theorem blobService.List_eq {σ : Type} (r : IBlobRepository σ) (s : σ) :
    (blobService.mk r).List s = r.List s := by
  unfold blobService.List
  rcases hL : r.List s with _ | ⟨out, s1⟩
  · rfl
  · rcases out with ⟨entries, _ | err⟩ | p <;> rfl

/-- Once the credential is built and the URL parsed, `Connect` is decided by the
container-create request. -/
theorem Connect_of_parsed {σ : Type} (az : Azure σ) (store : BlobStore) (container : String)
    (s : σ) (credential : Credential) (URL : String)
    (hcred : az.NewSharedKeyCredential store.Name store.Key = .ok credential)
    (hurl : az.urlParse ("https://" ++ store.Name ++ ".blob.core.windows.net/" ++ container)
      = .ok URL) :
    store.Connect az container s
      = match az.containerCreate ⟨URL, some credential⟩ s with
        | (none, s1) => (.returned (⟨URL, some credential⟩, none), s1)
        | (some (.storage serviceCode message), s1) =>
          if serviceCode ≠ ServiceCodeContainerAlreadyExists then
            (.returned (⟨URL, some credential⟩,
              some (.other ("Obtained container with error: " ++ message))), s1)
          else (.returned (⟨URL, some credential⟩, none), s1)
        | (some (.other _), s1) => (.panicked .typeAssertion, s1) := by
  simp only [BlobStore.Connect, hcred, hurl, GoError.Error]

/-! ## Lemmas: the in-memory account -/

theorem ensured_reachable (s : MemStore) : (ensured s).reachable = s.reachable := by
  unfold ensured; split <;> rfl

theorem ensured_blobs (s : MemStore) : (ensured s).blobs = s.blobs := by
  unfold ensured; split <;> rfl

theorem ensured_mem (s : MemStore) : photosUrl ∈ (ensured s).containers := by
  unfold ensured; split
  · assumption
  · simp

theorem ensured_idem (s : MemStore) : ensured (ensured s) = ensured s := by
  have h := ensured_mem s
  show (if photosUrl ∈ (ensured s).containers then ensured s else _) = _
  rw [if_pos h]

theorem sample_Connect (s : MemStore) :
    sampleRepository.BlobStore.Connect (ToLower sampleRepository.ContainerName) s
      = if s.reachable = false then (.panicked .typeAssertion, s)
        else (.returned (photos, none), ensured s) := by
  show sampleStore.Connect memAzure (ToLower "Photos") s = _
  rw [Connect_of_parsed memAzure sampleStore (ToLower "Photos") s ⟨"acct", "a2V5"⟩ photosUrl
    rfl rfl]
  have hcc : memAzure.containerCreate ⟨photosUrl, some ⟨"acct", "a2V5"⟩⟩ s
      = if s.reachable = false then (some errTransport, s)
        else if photosUrl ∈ s.containers then (some errContainerAlreadyExists, s)
        else (none, { s with containers := s.containers ++ [photosUrl] }) := rfl
  rw [hcc]
  by_cases hr : s.reachable = false
  · simp [hr, errTransport]
  · by_cases hc : photosUrl ∈ s.containers
    · simp [hr, hc, errContainerAlreadyExists, ServiceCodeContainerAlreadyExists, ensured,
        photos]
    · simp [hr, hc, ensured, photos]

theorem sample_Connect_reachable (s : MemStore) (hr : s.reachable = true) :
    sampleRepository.BlobStore.Connect (ToLower sampleRepository.ContainerName) s
      = (.returned (photos, none), ensured s) := by
  rw [sample_Connect, hr]; rfl

theorem sample_Connect_unreachable (s : MemStore) (hr : s.reachable = false) :
    sampleRepository.BlobStore.Connect (ToLower sampleRepository.ContainerName) s
      = (.panicked .typeAssertion, s) := by
  rw [sample_Connect, hr]; rfl

theorem sample_Read (name : String) (s : MemStore) :
    sampleRepository.Read memAzure name s
      = if s.reachable = false then (.panicked .typeAssertion, s)
        else match (ensured s).content photosUrl name with
          | none => (.returned ([], some errBlobNotFound), ensured s)
          | some data => (.returned (data, none), ensured s) := by
  cases hr : s.reachable with
  | false => simp [BlobRepository.Read, sample_Connect_unreachable s hr]
  | true =>
    have hr1 : (ensured s).reachable = true := by rw [ensured_reachable, hr]
    have hd : memAzure.Download (photos.NewBlockBlobURL name) (ensured s)
        = match (ensured s).content photosUrl name with
          | none => (.error errBlobNotFound, ensured s)
          | some data => (.ok (.ok data), ensured s) := by
      show (if (ensured s).reachable = false then _ else _) = _
      rw [hr1]
      rfl
    simp only [BlobRepository.Read, sample_Connect_reachable s hr, downloadToBuffer, hd]
    cases (ensured s).content photosUrl name <;> rfl

theorem sample_List (fuel : Nat) (s : MemStore) :
    sampleRepository.List memAzure fuel s
      = if s.reachable = false then some (.panicked .typeAssertion, s)
        else match listLoop memAzure photos fuel ⟨none⟩ [] (ensured s) with
          | none => none
          | some (results, s2) => some (.returned results, s2) := by
  cases hr : s.reachable with
  | false => simp [BlobRepository.List, sample_Connect_unreachable s hr]
  | true =>
    simp only [BlobRepository.List, sample_Connect_reachable s hr]
    rw [if_neg (by decide)]
    cases listLoop memAzure photos fuel ⟨none⟩ [] (ensured s) <;> rfl

/-- On the sample repository a read does not change what `List` returns. -/
theorem sample_Read_keeps_listing (fuel : Nat) (name : String) (s : MemStore) :
    (sampleRepository.asIBlobRepository memAzure fuel).List
        ((sampleRepository.asIBlobRepository memAzure fuel).Read name s).2
      = (sampleRepository.asIBlobRepository memAzure fuel).List s := by
  show sampleRepository.List memAzure fuel (sampleRepository.Read memAzure name s).2
    = sampleRepository.List memAzure fuel s
  cases hr : s.reachable with
  | false =>
    have : (sampleRepository.Read memAzure name s).2 = s := by
      rw [sample_Read]; simp [hr]
    rw [this]
  | true =>
    have : (sampleRepository.Read memAzure name s).2 = ensured s := by
      rw [sample_Read, hr]
      cases (ensured s).content photosUrl name <;> rfl
    rw [this, sample_List, sample_List, ensured_idem, ensured_reachable, hr]
    rfl

/-- On the sample repository a read leaves the blobs as they are. -/
theorem sample_Read_keeps_blobs (fuel : Nat) (name : String) (s : MemStore) :
    ((sampleRepository.asIBlobRepository memAzure fuel).Read name s).2.blobs = s.blobs := by
  show (sampleRepository.Read memAzure name s).2.blobs = s.blobs
  rw [sample_Read]
  cases hr : s.reachable with
  | false => rfl
  | true =>
    rw [if_neg (by decide)]
    cases (ensured s).content photosUrl name <;> exact ensured_blobs s

/-! ## The object service: round trip, name and `id`, integrity -/

/-- C2: the bytes `blobService.Create` and `blobService.Update` hand to the
repository under a name decode to a JSON object whose `id` is that name, for
every object, also one that already carries another `id`. -/
theorem writes_carry_their_name {σ ω τ : Type} (json : JsonLib ω τ)
    (hjson : json.RoundTrips) (r : IBlobRepository σ) (s : σ) :
    (∀ (newV4 : Except GoError UUID) (object : ω) (w : String × Bytes),
        w ∈ writes (blobService.Create json ⟨r.recorded⟩ newV4 object (s, [])).2.2 →
          carriesName json w.1 w.2) ∧
      (∀ (object : ω) (w : String × Bytes),
        w ∈ writes (blobService.Update json ⟨r.recorded⟩ object (s, [])).2.2 →
          carriesName json w.1 w.2) := by
  constructor
  · intro newV4 object w hw
    rcases newV4 with e | generator
    · simp [blobService.Create, writes] at hw
    · cases hM : json.Marshal object with
      | error e => simp [blobService.Create, hM, writes] at hw
      | ok data =>
        cases hU : json.UnmarshalMap data with
        | error e => simp [blobService.Create, hM, hU, writes] at hw
        | ok mappedObject =>
          cases mappedObject with
          | none => simp [blobService.Create, hM, hU, writes] at hw
          | some m =>
            cases hMM : json.MarshalMap (m.set "id" (.str generator.String)) with
            | error e => simp [blobService.Create, hM, hU, hMM, writes] at hw
            | ok bytes =>
              obtain ⟨_, m1, hm1, hget⟩ := hjson _ _ hMM
              have hw1 : w = (generator.String, bytes) := by
                rcases hC : r.Create generator.String bytes s with ⟨out, s1⟩
                rcases out with ⟨_ | err⟩ | p <;>
                  simpa [blobService.Create, hM, hU, hMM, IBlobRepository.recorded, hC, writes]
                    using hw
              subst hw1
              refine ⟨m1, hm1, ?_⟩
              rw [hget, JMap.get_set]
              simp
  · intro object w hw
    cases hM : json.Marshal object with
    | error e => simp [blobService.Update, hM, writes] at hw
    | ok data =>
      cases hU : json.UnmarshalMap data with
      | error e => simp [blobService.Update, hM, hU, writes] at hw
      | ok mappedObject =>
        cases hI : mapIndex mappedObject "id" with
        | none => simp [blobService.Update, hM, hU, hI, writes] at hw
        | some v =>
          cases v with
          | str identifier =>
            obtain ⟨entries, rfl, hget⟩ := mapIndex_str hI
            have hw1 : w = (identifier, data) := by
              rcases hR : r.Read identifier s with ⟨out, s1⟩
              rcases out with ⟨found, readErr⟩ | p
              · by_cases hlen : found.length ≤ 0
                · simp [blobService.Update, hM, hU, hI, IBlobRepository.recorded, hR, hlen,
                    writes] at hw
                · rcases hUp : r.Update identifier data s1 with ⟨out2, s2⟩
                  rcases out2 with ⟨_ | err⟩ | p <;>
                    simpa [blobService.Update, hM, hU, hI, IBlobRepository.recorded, hR, hlen,
                      hUp, writes] using hw
              · simp [blobService.Update, hM, hU, hI, IBlobRepository.recorded, hR, writes] at hw
            subst hw1
            exact ⟨entries, hU, hget⟩
          | null => simp [blobService.Update, hM, hU, hI, writes] at hw
          | bool b => simp [blobService.Update, hM, hU, hI, writes] at hw
          | number n => simp [blobService.Update, hM, hU, hI, writes] at hw
          | array items => simp [blobService.Update, hM, hU, hI, writes] at hw
          | object fields => simp [blobService.Update, hM, hU, hI, writes] at hw

/-- C2 on the sample stack: created from an object that carries `"id": "old"`,
the blob written under the generated name carries the generated name. -/
theorem writes_carry_their_name_witness :
    (sampleId, docAliceId) ∈ writes (blobService.Create sampleJson
        ⟨sampleService.repo.recorded⟩ (.ok ⟨sampleId⟩) .aliceOld (emptyAccount, [])).2.2 ∧
      carriesName sampleJson sampleId docAliceId :=
  ⟨List.Mem.head _,
    (writes_carry_their_name sampleJson sampleJson_roundTrips sampleService.repo emptyAccount).1
      (.ok ⟨sampleId⟩) .aliceOld (sampleId, docAliceId) (List.Mem.head _)⟩

/-- When the stored `id` is a string other than the requested identifier, `Read`
returns the checksum error and leaves the destination as it was. -/
theorem Read_reports_checksum {σ ω τ : Type} (json : JsonLib ω τ)
    (service : blobService σ) (id identifier : String) (target : τ) (s s1 : σ)
    (data : Bytes) (m : Option JMap)
    (hread : service.repo.Read id s = (.returned (data, none), s1)) (hdata : data ≠ [])
    (hmap : json.UnmarshalMap data = .ok m)
    (hid : mapIndex m "id" = some (.str identifier)) (hne : identifier ≠ id) :
    service.Read json id (.pointer target) s
      = (.returned (some (errChecksum identifier id)), .pointer target, s1) := by
  have hlen : ¬ data.length ≤ 0 := by
    cases data with
    | nil => exact absurd rfl hdata
    | cons b rest => simp
  simp [blobService.Read, hread, hlen, hmap, hid, hne]

/-- `Read` returns nil only when the payload read carries the requested
identifier as its `id`. -/
theorem Read_nil_only_if_id_matches {σ ω τ : Type} (json : JsonLib ω τ)
    (service : blobService σ) (id : String) (object after : Argument τ) (s s1 : σ)
    (h : service.Read json id object s = (.returned none, after, s1)) :
    ∃ data m, (service.repo.Read id s).1 = .returned (data, none) ∧
      json.UnmarshalMap data = .ok m ∧ mapIndex m "id" = some (.str id) := by
  cases object with
  | nonPointer v => simp [blobService.Read] at h
  | pointer target =>
    rcases hR : service.repo.Read id s with ⟨out, s2⟩
    rcases out with ⟨data, err⟩ | p
    · by_cases h1 : err.isSome ∧ data.length > 0
      · obtain ⟨e, rfl⟩ := Option.isSome_iff_exists.mp h1.1
        simp [blobService.Read, hR, h1.2] at h
      · by_cases h2 : data.length ≤ 0
        · simp only [blobService.Read, hR, h1, h2, if_true, if_false] at h
          simp at h
        · have herr : err = none := by
            cases err with
            | none => rfl
            | some e => exact absurd ⟨rfl, by omega⟩ h1
          subst herr
          cases hU : json.UnmarshalMap data with
          | error e => simp [blobService.Read, hR, h2, hU] at h
          | ok m =>
            cases hI : mapIndex m "id" with
            | none => simp [blobService.Read, hR, h2, hU, hI] at h
            | some v =>
              cases v with
              | str identifier =>
                by_cases hne : identifier = id
                · subst hne
                  exact ⟨data, m, rfl, hU, hI⟩
                · simp [blobService.Read, hR, h2, hU, hI, hne] at h
              | null => simp [blobService.Read, hR, h2, hU, hI] at h
              | bool b => simp [blobService.Read, hR, h2, hU, hI] at h
              | number n => simp [blobService.Read, hR, h2, hU, hI] at h
              | array items => simp [blobService.Read, hR, h2, hU, hI] at h
              | object fields => simp [blobService.Read, hR, h2, hU, hI] at h
    · simp [blobService.Read, hR] at h

/-- C3, at the failing input: the blob read under the requested name holds the
JSON object `{"id":5}`, whose `id` is not the requested identifier; `Read`
panics on the type assertion and returns no integrity error. -/
theorem Read_panics_on_numeric_id :
    sampleService.repo.Read sampleId fiveStored = (.returned (docFive, none), fiveStored) ∧
      docFive ≠ [] ∧
      sampleJson.UnmarshalMap docFive = .ok (some [("id", .number 4617315517961601024)]) ∧
      sampleService.Read sampleJson sampleId (.pointer []) fiveStored
        = (.panicked .typeAssertion, .pointer [], fiveStored) :=
  ⟨rfl, by decide, rfl, rfl⟩

/-! ## The object service: existence checks and returned identifier -/

/-- C4, as stated, fails: the object carries the `id` `sampleId`, the repository
read of it yields empty data, `Update` returns the not-found error after that
single read, and yet the store is changed: the connection the read opened has
created the container. No blob was written. -/
theorem Update_of_absent_creates_container :
    sampleJson.Marshal SampleObject.bob = .ok docBobId ∧
      sampleJson.UnmarshalMap docBobId
        = .ok (some [("id", .str sampleId), ("name", .str "bob")]) ∧
      sampleService.repo.Read sampleId emptyAccount
        = (.returned ([], some errBlobNotFound), containerCreated) ∧
      blobService.Update sampleJson ⟨sampleService.repo.recorded⟩ SampleObject.bob
          (emptyAccount, [])
        = (.returned (some (errNotExist sampleId)),
            (containerCreated, [RepoCall.Read sampleId])) ∧
      containerCreated ≠ emptyAccount ∧
      containerCreated.blobs = emptyAccount.blobs :=
  ⟨rfl, rfl, rfl, rfl, by decide, rfl⟩

/-- C4, amended: for an object whose `id` is the string `u`: when the
repository read of `u` yields empty data, with or without an error, `Update`
returns the not-found error for `u`, its only repository call is that read, so
that the store is as the read left it and whatever reads leave unchanged
(`obs`, such as the blobs held) is unchanged; when the read yields data, the
repository update is called with name `u` and the serialized object, whatever
the read error, and `Update` returns what that update returns. -/
theorem Update_checks_existence {σ ω τ β : Type} (json : JsonLib ω τ)
    (r : IBlobRepository σ) (obs : σ → β)
    (hobs : ∀ name st, obs (r.Read name st).2 = obs st)
    (object : ω) (data : Bytes) (m : Option JMap) (u : String)
    (s s1 : σ) (found : Bytes) (readErr : Option GoError)
    (hmarshal : json.Marshal object = .ok data) (hmap : json.UnmarshalMap data = .ok m)
    (hid : mapIndex m "id" = some (.str u))
    (hread : r.Read u s = (.returned (found, readErr), s1)) :
    (found = [] →
        blobService.Update json ⟨r.recorded⟩ object (s, [])
            = (.returned (some (errNotExist u)), (s1, [RepoCall.Read u])) ∧
          obs (blobService.Update json ⟨r.recorded⟩ object (s, [])).2.1 = obs s) ∧
      (found ≠ [] →
        blobService.Update json ⟨r.recorded⟩ object (s, [])
          = ((r.Update u data s1).1,
              ((r.Update u data s1).2, [RepoCall.Read u, RepoCall.Update u data]))) := by
  constructor
  · intro hfound
    subst hfound
    have h : blobService.Update json ⟨r.recorded⟩ object (s, [])
        = (.returned (some (errNotExist u)), (s1, [RepoCall.Read u])) := by
      simp [blobService.Update, hmarshal, hmap, hid, IBlobRepository.recorded, hread]
    refine ⟨h, ?_⟩
    rw [h]
    have h1 := hobs u s
    rw [hread] at h1
    exact h1
  · intro hfound
    have hlen : ¬ found.length ≤ 0 := by
      cases found with
      | nil => exact absurd rfl hfound
      | cons b rest => simp
    rcases hUp : r.Update u data s1 with ⟨out, s2⟩
    rcases out with ⟨_ | err⟩ | p <;>
      simp [blobService.Update, hmarshal, hmap, hid, IBlobRepository.recorded, hread, hlen, hUp]

/-- C4 amended, on the sample stack: updating an object whose blob does not exist
returns the not-found error after a single read (whose connection created the
container) and leaves the blobs as they were; updating one whose blob exists
reaches the repository update. -/
theorem Update_checks_existence_witness :
    (blobService.Update sampleJson ⟨sampleService.repo.recorded⟩ SampleObject.bob
          (emptyAccount, [])
        = (.returned (some (errNotExist sampleId)),
            (⟨true, [photosUrl], []⟩, [RepoCall.Read sampleId])) ∧
      (blobService.Update sampleJson ⟨sampleService.repo.recorded⟩ SampleObject.bob
          (emptyAccount, [])).2.1.blobs = emptyAccount.blobs) ∧
    blobService.Update sampleJson ⟨sampleService.repo.recorded⟩ SampleObject.bob
        (aliceStored, [])
      = ((sampleService.repo.Update sampleId docBobId aliceStored).1,
          ((sampleService.repo.Update sampleId docBobId aliceStored).2,
            [RepoCall.Read sampleId, RepoCall.Update sampleId docBobId])) :=
  ⟨(Update_checks_existence sampleJson sampleService.repo MemStore.blobs
      (sample_Read_keeps_blobs 8) SampleObject.bob docBobId
      (some [("id", .str sampleId), ("name", .str "bob")]) sampleId emptyAccount
      ⟨true, [photosUrl], []⟩ [] (some errBlobNotFound) rfl rfl rfl rfl).1 rfl,
   (Update_checks_existence sampleJson sampleService.repo MemStore.blobs
      (sample_Read_keeps_blobs 8) SampleObject.bob docBobId
      (some [("id", .str sampleId), ("name", .str "bob")]) sampleId aliceStored
      aliceStored docAliceId none rfl rfl rfl rfl).2 (by decide)⟩

/-- C5: when the repository read of `u` yields empty data, `Delete` returns the
not-found error for `u`, its only repository call is that read, and, reads
leaving the listing as it is, `List` after the call returns what it returned
before. -/
theorem Delete_checks_existence {σ : Type} (r : IBlobRepository σ) (u : String)
    (s s1 : σ) (readErr : Option GoError)
    (hread : r.Read u s = (.returned ([], readErr), s1))
    (hlist : ∀ name st, (r.List (r.Read name st).2).map Prod.fst = (r.List st).map Prod.fst) :
    blobService.Delete ⟨r.recorded⟩ u (s, [])
        = (.returned (some (errNotExist u)), (s1, [RepoCall.Read u])) ∧
      ((blobService.mk r).List (blobService.Delete ⟨r⟩ u s).2).map Prod.fst
        = ((blobService.mk r).List s).map Prod.fst := by
  constructor
  · simp [blobService.Delete, IBlobRepository.recorded, hread]
  · have hstate : (blobService.Delete ⟨r⟩ u s).2 = (r.Read u s).2 := by
      simp [blobService.Delete, hread]
    rw [hstate, blobService.List_eq, blobService.List_eq]
    exact hlist u s

/-- C5 on the sample stack: deleting a name that does not exist. -/
theorem Delete_checks_existence_witness :
    blobService.Delete ⟨sampleService.repo.recorded⟩ "zz" (threeBlobs, [])
        = (.returned (some (errNotExist "zz")), (threeBlobs, [RepoCall.Read "zz"])) ∧
      (sampleService.List (sampleService.Delete "zz" threeBlobs).2).map Prod.fst
        = (sampleService.List threeBlobs).map Prod.fst :=
  Delete_checks_existence sampleService.repo "zz" threeBlobs threeBlobs
    (some errBlobNotFound) rfl
    (fun name st => congrArg (Option.map Prod.fst) (sample_Read_keeps_listing 8 name st))

/-- `Connect` returns a nil error exactly when the credential is built, the URL
parses and the container-create request succeeds or fails with the
`ContainerAlreadyExists` code. -/
theorem Connect_returns_nil_iff {σ : Type} (az : Azure σ) (store : BlobStore)
    (container : String) (s s1 : σ) (url : ContainerURL) :
    store.Connect az container s = (.returned (url, none), s1) ↔
      ∃ credential URL, az.NewSharedKeyCredential store.Name store.Key = .ok credential ∧
        az.urlParse ("https://" ++ store.Name ++ ".blob.core.windows.net/" ++ container)
          = .ok URL ∧
        url = ⟨URL, some credential⟩ ∧
        (az.containerCreate url s = (none, s1) ∨
          ∃ message, az.containerCreate url s
            = (some (.storage ServiceCodeContainerAlreadyExists message), s1)) := by
  constructor
  · intro h
    cases hcred : az.NewSharedKeyCredential store.Name store.Key with
    | error e => simp [BlobStore.Connect, hcred] at h
    | ok credential =>
      cases hurl : az.urlParse
          ("https://" ++ store.Name ++ ".blob.core.windows.net/" ++ container) with
      | error e => simp [BlobStore.Connect, hcred, hurl] at h
      | ok URL =>
        rw [Connect_of_parsed az store container s credential URL hcred hurl] at h
        rcases hcc : az.containerCreate ⟨URL, some credential⟩ s with ⟨result, s2⟩
        rw [hcc] at h
        rcases result with _ | ⟨code, message⟩ | message
        · simp only at h
          injection h with h1 h2
          injection h1 with h1
          injection h1 with h3 _
          subst h2 h3
          exact ⟨credential, URL, rfl, rfl, rfl, Or.inl hcc⟩
        · by_cases hcode : code = ServiceCodeContainerAlreadyExists
          · subst hcode
            simp only [ne_eq, not_true_eq_false, if_false] at h
            injection h with h1 h2
            injection h1 with h1
            injection h1 with h3 _
            subst h2 h3
            exact ⟨credential, URL, rfl, rfl, rfl, Or.inr ⟨message, hcc⟩⟩
          · simp [hcode] at h
        · simp at h
  · rintro ⟨credential, URL, hcred, hurl, rfl, hcc | ⟨message, hcc⟩⟩
    · rw [Connect_of_parsed az store container s credential URL hcred hurl, hcc]
    · rw [Connect_of_parsed az store container s credential URL hcred hurl, hcc]
      simp

/-- A credential failure comes back as a non-nil error. -/
theorem Connect_reports_credential_failure {σ : Type} (az : Azure σ) (store : BlobStore)
    (container : String) (s : σ) (e : GoError)
    (hcred : az.NewSharedKeyCredential store.Name store.Key = .error e) :
    store.Connect az container s
      = (.returned (ContainerURL.zero,
          some (.other ("Invalid credentials with error: " ++ e.Error))), s) := by
  simp only [BlobStore.Connect, hcred]

/-- A storage error with any other service code comes back as a non-nil error. -/
theorem Connect_reports_storage_failure {σ : Type} (az : Azure σ) (store : BlobStore)
    (container : String) (s s1 : σ) (credential : Credential) (URL code message : String)
    (hcred : az.NewSharedKeyCredential store.Name store.Key = .ok credential)
    (hurl : az.urlParse ("https://" ++ store.Name ++ ".blob.core.windows.net/" ++ container)
      = .ok URL)
    (hcreate : az.containerCreate ⟨URL, some credential⟩ s
      = (some (.storage code message), s1))
    (hcode : code ≠ ServiceCodeContainerAlreadyExists) :
    store.Connect az container s
      = (.returned (⟨URL, some credential⟩,
          some (.other ("Obtained container with error: " ++ message))), s1) := by
  rw [Connect_of_parsed az store container s credential URL hcred hurl, hcreate]
  simp [hcode]

/-- When the container-create request fails with an error that is not a storage
error, `Connect` panics. -/
theorem Connect_panics_on_foreign_error {σ : Type} (az : Azure σ) (store : BlobStore)
    (container : String) (s s1 : σ) (credential : Credential) (URL message : String)
    (hcred : az.NewSharedKeyCredential store.Name store.Key = .ok credential)
    (hurl : az.urlParse ("https://" ++ store.Name ++ ".blob.core.windows.net/" ++ container)
      = .ok URL)
    (hcreate : az.containerCreate ⟨URL, some credential⟩ s = (some (.other message), s1)) :
    store.Connect az container s = (.panicked .typeAssertion, s1) := by
  rw [Connect_of_parsed az store container s credential URL hcred hurl, hcreate]

/-- C7, at the failing input: the account cannot be reached, so the
container-create request fails with an error that is not a storage error, and
`Connect` panics on the type assertion instead of returning an error. -/
theorem Connect_panics_when_unreachable :
    memAzure.NewSharedKeyCredential sampleStore.Name sampleStore.Key
        = .ok ⟨"acct", "a2V5"⟩ ∧
      memAzure.containerCreate ⟨photosUrl, some ⟨"acct", "a2V5"⟩⟩ offline
        = (some errTransport, offline) ∧
      sampleStore.Connect memAzure "photos" offline = (.panicked .typeAssertion, offline) :=
  ⟨rfl, rfl, rfl⟩

/-! ## The repository: listing and delete -/

/-- C8: when the connection succeeds and the store serves `segments` one after
the other, `BlobRepository.List` returns their names concatenated in that
order, with no error when the last next marker is done and with the (wrapped,
non-nil) error of the failing fetch otherwise; `blobService.List` returns the
same names and error. -/
theorem List_concatenates_segments {σ : Type} (az : Azure σ) (repo : BlobRepository σ)
    (fuel : Nat) (s s1 sEnd : σ) (url : ContainerURL) (segments : Slice (Slice String))
    (failure : Option GoError)
    (hconnect : repo.BlobStore.Connect (ToLower repo.ContainerName) s
      = (.returned (url, none), s1))
    (hserves : Serves az url ⟨none⟩ s1 segments failure sEnd)
    (hfuel : segments.length < fuel) :
    repo.List az fuel s
        = some (.returned (segments.flatten, failure.map errListing), sEnd) ∧
      (GetBlobService az fuel repo.BlobStore repo.ContainerName).List s
        = some (.returned (segments.flatten, failure.map errListing), sEnd) ∧
      (failure = none ↔ failure.map errListing = none) := by
  have hloop := listLoop_of_serves az url hserves fuel [] rfl hfuel
  have hrepo : repo.List az fuel s
      = some (.returned (segments.flatten, failure.map errListing), sEnd) := by
    simp only [BlobRepository.List, hconnect, hloop, List.nil_append]
  refine ⟨hrepo, ?_, by cases failure <;> simp⟩
  have hsame : (⟨repo.BlobStore, repo.ContainerName⟩ : BlobRepository σ) = repo := rfl
  simp only [GetBlobService, blobService.List, BlobRepository.asIBlobRepository, hsame, hrepo]
  cases failure <;> rfl

/-- C8 on the in-memory account: three blobs come in two segments. -/
theorem List_concatenates_segments_witness :
    sampleRepository.List memAzure 3 threeBlobs
        = some (.returned (["a", "b", "c"], none), threeBlobs) ∧
      (GetBlobService memAzure 3 sampleRepository.BlobStore sampleRepository.ContainerName).List
          threeBlobs
        = some (.returned (["a", "b", "c"], none), threeBlobs) :=
  have h := List_concatenates_segments memAzure sampleRepository 3 threeBlobs threeBlobs
    threeBlobs ⟨photosUrl, some ⟨"acct", "a2V5"⟩⟩ [["a", "b"], ["c"]] none (by decide)
    (Serves.more threeBlobs ⟨⟨some "c"⟩, ⟨[⟨"a"⟩, ⟨"b"⟩]⟩⟩ rfl rfl
      (Serves.last threeBlobs ⟨⟨some ""⟩, ⟨[⟨"c"⟩]⟩⟩ rfl rfl))
    (by decide)
  ⟨h.1, h.2.1⟩

/-- C9, as stated, fails: deleting a name that does not exist, the store's
delete fails with its not-found error, and `BlobRepository.Delete` returns
another error value, with another message. -/
theorem Delete_returns_another_error :
    sampleRepository.BlobStore.Connect (ToLower sampleRepository.ContainerName) threeBlobs
        = (.returned (⟨photosUrl, some ⟨"acct", "a2V5"⟩⟩, none), threeBlobs) ∧
      memAzure.blobDelete ⟨⟨photosUrl, some ⟨"acct", "a2V5"⟩⟩, "zz"⟩ threeBlobs
        = (some errBlobNotFound, threeBlobs) ∧
      (sampleRepository.Delete memAzure "zz" threeBlobs).1
        ≠ .returned (some errBlobNotFound) ∧
      (sampleRepository.Delete memAzure "zz" threeBlobs).1
        = .returned (some (.other
            "Delete failed with error: The specified blob does not exist.")) := by
  decide

/-- C9, amended: when the connection succeeds and the store's delete fails with
error `e`, `BlobRepository.Delete` returns a new error whose message is
`Delete failed with error: ` followed by the message of `e`; it is never `e`
itself. -/
theorem Delete_wraps_store_error {σ : Type} (az : Azure σ) (repo : BlobRepository σ)
    (fileName : String) (s s1 s2 : σ) (url : ContainerURL) (e : GoError)
    (hconnect : repo.BlobStore.Connect (ToLower repo.ContainerName) s
      = (.returned (url, none), s1))
    (hdelete : az.blobDelete (url.NewBlockBlobURL fileName) s1 = (some e, s2)) :
    repo.Delete az fileName s
        = (.returned (some (.other ("Delete failed with error: " ++ e.Error))), s2) ∧
      (repo.Delete az fileName s).1 ≠ .returned (some e) := by
  have h : repo.Delete az fileName s
      = (.returned (some (.other ("Delete failed with error: " ++ e.Error))), s2) := by
    simp only [BlobRepository.Delete, hconnect, hdelete]
  refine ⟨h, ?_⟩
  rw [h]
  intro hne
  injection hne with hne
  injection hne with hne
  exact errDelete_ne e hne

/-- C9 amended, on the in-memory account. -/
theorem Delete_wraps_store_error_witness :
    sampleRepository.Delete memAzure "zz" threeBlobs
        = (.returned (some (.other ("Delete failed with error: " ++ errBlobNotFound.Error))),
            threeBlobs) ∧
      (sampleRepository.Delete memAzure "zz" threeBlobs).1
        ≠ .returned (some errBlobNotFound) :=
  Delete_wraps_store_error memAzure sampleRepository "zz" threeBlobs threeBlobs threeBlobs
    ⟨photosUrl, some ⟨"acct", "a2V5"⟩⟩ errBlobNotFound (by decide) (by decide)

/-! ## The object service: update without an identifier -/

/-- For every object whose serialization decodes without a string `id`,
`Update` panics before any repository call. -/
theorem Update_panics_without_string_id {σ ω τ : Type} (json : JsonLib ω τ)
    (service : blobService σ) (object : ω) (data : Bytes) (m : Option JMap) (s : σ)
    (hmarshal : json.Marshal object = .ok data) (hmap : json.UnmarshalMap data = .ok m)
    (hid : ∀ u, mapIndex m "id" ≠ some (.str u)) :
    service.Update json object s = (.panicked .typeAssertion, s) := by
  cases hI : mapIndex m "id" with
  | none => simp [blobService.Update, hmarshal, hmap, hI]
  | some v =>
    cases v with
    | str identifier => exact absurd hI (hid identifier)
    | null => simp [blobService.Update, hmarshal, hmap, hI]
    | bool b => simp [blobService.Update, hmarshal, hmap, hI]
    | number n => simp [blobService.Update, hmarshal, hmap, hI]
    | array items => simp [blobService.Update, hmarshal, hmap, hI]
    | object fields => simp [blobService.Update, hmarshal, hmap, hI]

/-- C10, at the failing input: the object `map[string]string{"name": "alice"}`
serializes to a JSON object without `id`; `Update` panics on the type assertion
and so returns no error to its caller. No repository call was made. -/
theorem Update_without_id_panics :
    sampleJson.Marshal .alice = .ok docAlice ∧
      sampleJson.UnmarshalMap docAlice = .ok (some [("name", .str "alice")]) ∧
      JMap.get [("name", .str "alice")] "id" = none ∧
      blobService.Update sampleJson ⟨sampleService.repo.recorded⟩ SampleObject.alice
          (aliceStored, [])
        = (.panicked .typeAssertion, (aliceStored, [])) :=
  ⟨rfl, rfl, rfl, rfl⟩

end AzureBlob
